import Mathlib

/-!
Verification of the session and credential cache subsystem of the aida chat
platform.  The definitions below are a shallow embedding of the Python source:
`mongodb_manager.py` (durable session store), `session_manager.py` (a thin
delegating wrapper) and `aida_api_server.py` (the Flask endpoints
`init_session`, `chat_with_agent` and `clear_session`).

Modelling conventions:
- Timestamps are integers counting seconds (`datetime.now()` readings).
- The MongoDB `sessions` and `chat_messages` collections are lists of records
  in insertion order; `find_one` without a sort returns the first match in
  that order, `find_one` with `sort last_accessed descending` returns the
  first match of maximal `last_accessed`.
- The SHA-256 and MD5 hex digests are opaque: every function that hashes is
  parameterised by a `HashFns` record, so theorems hold for an arbitrary
  digest function and hash inequalities appear as explicit hypotheses.
- Python string operations are modelled on the character list of the string
  (`str.lower`, `str.rstrip`, `str.strip`), matching their ASCII behaviour.
- `timedelta.seconds` is the day remainder of the elapsed time, not the total
  elapsed seconds; `timedeltaSeconds` reproduces this exactly.
-/

namespace AidaChat

/-- Model of Python `str.lower` (per-character lowercasing). -/
def pyLower (s : String) : String := ⟨s.data.map Char.toLower⟩

/-- Model of Python `str.rstrip("/")`: removes every trailing slash. -/
def rstripSlashes (s : String) : String :=
  ⟨(s.data.reverse.dropWhile (fun c => c = '/')).reverse⟩

/-- Model of Python `str.strip()`: removes leading and trailing whitespace. -/
def pyStrip (s : String) : String :=
  ⟨((s.data.dropWhile Char.isWhitespace).reverse.dropWhile Char.isWhitespace).reverse⟩

/-- First `n` characters of a string, as in Python slicing `s[:n]`. -/
def strTake (s : String) (n : Nat) : String := ⟨s.data.take n⟩

/-- The two digest functions used by `mongodb_manager.py` (`hashlib.sha256`
and `hashlib.md5` hex digests), kept opaque as parameters of the model. -/
structure HashFns where
  sha : String → String
  md5 : String → String

/-- Durable session record, as inserted by `MongoDBManager.create_session`. -/
structure Session where
  session_id : String
  user_id : Option String
  user_identifier : String
  erpnext_url : String
  username : String
  password_hash : String
  google_api_key_hash : String
  site_base_url : String
  created_at : Int
  last_accessed : Int
  browser_fingerprint : String
  is_active : Bool
deriving DecidableEq

/-- Durable chat message record, as inserted by
`MongoDBManager.store_chat_message`. -/
structure Message where
  message_id : String
  session_id : String
  user_id : Option String
  user_identifier : String
  timestamp : Int
  message_type : String
  content : String
  metadata : Option String
deriving DecidableEq

/-- The durable store: the `sessions` and `chat_messages` collections. -/
structure Store where
  sessions : List Session
  messages : List Message
deriving DecidableEq

/-- `MongoDBManager._generate_user_identifier`: sha256 hex digest of
`username.lower() + "@" + erpnext_url.rstrip("/").lower()`, truncated to its
first 16 characters. -/
def userIdentifier (H : HashFns) (username erpnextUrl : String) : String :=
  strTake (H.sha (pyLower username ++ "@" ++ pyLower (rstripSlashes erpnextUrl))) 16

/-- `MongoDBManager._hash_credential`: sha256 hex digest of the credential. -/
def hashCredential (H : HashFns) (credential : String) : String :=
  H.sha credential

/-- `MongoDBManager._generate_browser_fingerprint`: md5 hex digest of
`user_agent + ":" + ip_address`. -/
def browserFingerprint (H : HashFns) (userAgent ipAddress : String) : String :=
  H.md5 (userAgent ++ ":" ++ ipAddress)

/-- `MongoDBManager.get_session`: `find_one` on session id and
`is_active = true`. -/
def getSession (st : Store) (sid : String) : Option Session :=
  st.sessions.find? (fun s => s.session_id == sid && s.is_active)

/-- The query filter of the `user_identifier` branch of
`MongoDBManager.find_existing_session`. -/
def sessionMatches (uid fp : String) (cutoff : Int) (s : Session) : Bool :=
  s.user_identifier == uid && s.browser_fingerprint == fp &&
    decide (cutoff ≤ s.last_accessed) && s.is_active

/-- The query filter of the `user_id` branch of
`MongoDBManager.find_existing_session`. -/
def sessionMatchesByUser (u erpnextUrl : String) (cutoff : Int) (s : Session) : Bool :=
  s.user_id == some u && s.erpnext_url == erpnextUrl &&
    decide (cutoff ≤ s.last_accessed) && s.is_active

/-- The element of maximal `last_accessed`, preferring the earliest in
insertion order among ties: `find_one` under `sort last_accessed -1`. -/
def bestByLastAccessed : List Session → Option Session
  | [] => none
  | s :: rest =>
    match bestByLastAccessed rest with
    | none => some s
    | some b => some (if b.last_accessed > s.last_accessed then b else s)

/-- `find_one` with a filter and `sort last_accessed -1`. -/
def findOneSorted (p : Session → Bool) (l : List Session) : Option Session :=
  bestByLastAccessed (l.filter p)

/-- `MongoDBManager.find_existing_session`: first the `user_id` query when an
account id is supplied, then the `(user_identifier, browser_fingerprint)`
query; both restricted to active sessions accessed within the last 30 days. -/
def findExistingSession (H : HashFns) (userAgent ipAddress erpnextUrl username : String)
    (userId : Option String) (now : Int) (st : Store) : Option String :=
  let uid := userIdentifier H username erpnextUrl
  let fp := browserFingerprint H userAgent ipAddress
  let cutoff := now - 30 * 86400
  let fallback := (findOneSorted (sessionMatches uid fp cutoff) st.sessions).map
    (fun s => s.session_id)
  match userId with
  | some u =>
    match findOneSorted (sessionMatchesByUser u erpnextUrl cutoff) st.sessions with
    | some s => some s.session_id
    | none => fallback
  | none => fallback

/-- `update_one` on the first record with the given session id. -/
def updateFirstSession (sid : String) (f : Session → Session) :
    List Session → List Session
  | [] => []
  | s :: rest =>
    if s.session_id = sid then f s :: rest
    else s :: updateFirstSession sid f rest

/-- `MongoDBManager.update_session_access`: sets `last_accessed` to now on the
record with the given session id. -/
def updateSessionAccess (st : Store) (sid : String) (now : Int) : Store :=
  { st with sessions := updateFirstSession sid (fun s => { s with last_accessed := now }) st.sessions }

/-- `MongoDBManager.verify_credentials`: recompute both hashes and compare to
the stored values; false when the session is missing or inactive. -/
def verifyCredentials (H : HashFns) (st : Store) (sid password googleApiKey : String) : Bool :=
  match getSession st sid with
  | none => false
  | some s =>
    s.password_hash == hashCredential H password &&
      s.google_api_key_hash == hashCredential H googleApiKey

/-- The session document assembled by `MongoDBManager.create_session`. -/
def newSessionRecord (H : HashFns)
    (newId erpnextUrl username password googleApiKey userAgent ipAddress siteBaseUrl : String)
    (userId : Option String) (now : Int) : Session :=
  { session_id := newId
    user_id := userId
    user_identifier := userIdentifier H username erpnextUrl
    erpnext_url := erpnextUrl
    username := username
    password_hash := hashCredential H password
    google_api_key_hash := hashCredential H googleApiKey
    site_base_url := if siteBaseUrl = "" then erpnextUrl else siteBaseUrl
    created_at := now
    last_accessed := now
    browser_fingerprint := browserFingerprint H userAgent ipAddress
    is_active := true }

/-- `MongoDBManager.create_session`: inserts a fresh active record with both
timestamps set to now.  The generated uuid is the `newId` parameter. -/
def createSession (H : HashFns)
    (newId erpnextUrl username password googleApiKey userAgent ipAddress siteBaseUrl : String)
    (userId : Option String) (now : Int) (st : Store) : Store :=
  { st with sessions := st.sessions ++
      [newSessionRecord H newId erpnextUrl username password googleApiKey userAgent
        ipAddress siteBaseUrl userId now] }

/-- `MongoDBManager.store_chat_message`: inserts one message, copying
`user_id` and `user_identifier` from the (active) session record.  When the
session is missing the source raises and nothing is inserted; the store is
unchanged in that case here as well. -/
def storeChatMessage (st : Store) (newMessageId sid messageType content : String)
    (now : Int) : Store :=
  match getSession st sid with
  | none => st
  | some s =>
    { st with messages := st.messages ++ [{
        message_id := newMessageId
        session_id := sid
        user_id := s.user_id
        user_identifier := s.user_identifier
        timestamp := now
        message_type := messageType
        content := content
        metadata := none }] }

/-- Insertion step for sorting messages by ascending timestamp. -/
def insertByTimestamp (m : Message) : List Message → List Message
  | [] => [m]
  | x :: xs =>
    if x.timestamp ≤ m.timestamp then x :: insertByTimestamp m xs
    else m :: x :: xs

/-- Sort messages by ascending timestamp (the `sort timestamp 1` of the
history query). -/
def sortByTimestamp : List Message → List Message
  | [] => []
  | m :: ms => insertByTimestamp m (sortByTimestamp ms)

/-- One row of the result of `MongoDBManager.get_chat_history`. -/
structure HistoryEntry where
  role : String
  content : String
  timestamp : Int
  metadata : Option String
deriving DecidableEq

/-- `MongoDBManager.get_chat_history`: messages of the session, sorted by
ascending timestamp, limited, mapped to role and content rows.  The session
record itself is never consulted. -/
def getChatHistory (st : Store) (sid : String) (lim : Nat) : List HistoryEntry :=
  ((sortByTimestamp (st.messages.filter (fun m => m.session_id == sid))).take lim).map
    (fun m => { role := if m.message_type == "user" then "user" else "assistant"
                content := m.content
                timestamp := m.timestamp
                metadata := m.metadata })

/-- The deletion filter of `MongoDBManager.cleanup_expired_sessions`:
`last_accessed < cutoff` or `is_active = false`. -/
def expiredSessionFilter (cutoff : Int) (s : Session) : Bool :=
  decide (s.last_accessed < cutoff) || !s.is_active

/-- `MongoDBManager.cleanup_expired_sessions`: deletes every session matching
`expiredSessionFilter` together with all messages carrying one of the deleted
session ids.  The Python function only logs the count and returns `None`,
modelled by the second component always being `none`. -/
def cleanupExpiredSessions (days : Nat) (now : Int) (st : Store) : Store × Option Nat :=
  let cutoff := now - (days : Int) * 86400
  let expired := st.sessions.filter (expiredSessionFilter cutoff)
  if expired.isEmpty then (st, none)
  else
    let ids := expired.map (fun s => s.session_id)
    ({ sessions := st.sessions.filter (fun s => !(ids.contains s.session_id))
       messages := st.messages.filter (fun m => !(ids.contains m.session_id)) }, none)

/-- `MongoDBManager.clear_all_sessions`: unconditional delete of every session
and every message. -/
def clearAllSessions (_st : Store) : Store :=
  { sessions := [], messages := [] }

/-- Modelled from the spec: splits a URL at the first `://`, returning the
scheme characters and the remainder. -/
def splitScheme : List Char → Option (List Char × List Char)
  | [] => none
  | ':' :: '/' :: '/' :: rest => some ([], rest)
  | c :: rest => (splitScheme rest).map (fun p => (c :: p.1, p.2))

/-- Modelled from the spec: lowercases exactly the host part of a URL,
leaving the scheme and the rest of the URL unchanged. -/
def lowerHostPart (s : String) : String :=
  match splitScheme s.data with
  | none => s
  | some (scheme, rest) =>
    let host := rest.takeWhile (fun c => c ≠ '/')
    let tail := rest.dropWhile (fun c => c ≠ '/')
    ⟨scheme ++ [':', '/', '/'] ++ host.map Char.toLower ++ tail⟩

/-- Modelled from the spec: `tenantKey(username, endpointURL)` as the spec
describes it, the digest of `lowercase(username) + "@" + normalize(url)` where
normalization strips trailing slashes and lowercases only the host. -/
def tenantKeySpec (H : HashFns) (username erpnextUrl : String) : String :=
  H.sha (pyLower username ++ "@" ++ lowerHostPart (rstripSlashes erpnextUrl))

/-- The in-memory agent handle held by the Live Resource Cache
(`active_agents`): the constructor arguments of `AidaERPNextAgent`. -/
structure AgentHandle where
  erpnext_url : String
  username : String
  password : String
  google_api_key : String
  session_id : String
  site_base_url : String
deriving DecidableEq

/-- Lookup in an association list with string keys (Python dict read). -/
def lookupA {β : Type} : List (String × β) → String → Option β
  | [], _ => none
  | p :: rest, k => if p.1 = k then some p.2 else lookupA rest k

/-- Write to an association list with string keys (Python dict assignment);
the new binding shadows any previous one. -/
def setA {β : Type} (l : List (String × β)) (k : String) (v : β) : List (String × β) :=
  (k, v) :: l

/-- Delete a key from an association list (Python `del d[k]`). -/
def eraseA {β : Type} : List (String × β) → String → List (String × β)
  | [], _ => []
  | p :: rest, k => if p.1 = k then eraseA rest k else p :: eraseA rest k

/-- Full in-process server state: the durable store, the Live Resource Cache
`active_agents`, and the chat rate limit table `app.rate_limits`. -/
structure ServerState where
  store : Store
  agents : List (String × AgentHandle)
  rateLimits : List (String × List Int)
deriving DecidableEq

/-- Outcome of the `/init_session` endpoint. -/
inductive InitOutcome where
  | missingFields
  | serverMisconfigured
  | externalAuthPath
  | initFailed
  | ok (sessionId : String) (restored : Bool)
deriving DecidableEq

/-- Builds the `AidaERPNextAgent` handle from its constructor arguments. -/
def buildHandle (erpnextUrl username password googleApiKey sid siteBaseUrl : String) :
    AgentHandle :=
  { erpnext_url := erpnextUrl, username := username, password := password,
    google_api_key := googleApiKey, session_id := sid, site_base_url := siteBaseUrl }

/-- The new-session branch of `init_session`: create the durable record under
a fresh uuid and cache a freshly built handle for it. -/
def initCreatePath (H : HashFns)
    (newId erpnextUrl username password googleApiKey siteBaseUrl userAgent ipAddress : String)
    (now : Int) (st : ServerState) : InitOutcome × ServerState :=
  let store1 := createSession H newId erpnextUrl username password googleApiKey
    userAgent ipAddress siteBaseUrl none now st.store
  let agents1 := setA st.agents newId
    (buildHandle erpnextUrl username password googleApiKey newId siteBaseUrl)
  (.ok newId false, { st with store := store1, agents := agents1 })

/-- The `/init_session` endpoint (`init_session` in `aida_api_server.py`):
field validation, then optional restoration via `find_existing_session` plus
`verify_credentials`, falling through to new-session creation when no fresh
matching candidate verifies.  The `session_token` password triggers an
external network validation that is not modelled further. -/
def initSession (H : HashFns)
    (newId erpnextUrl username password googleApiKey siteBaseUrl userAgent ipAddress : String)
    (restoreSession : Bool) (now : Int) (st : ServerState) : InitOutcome × ServerState :=
  if erpnextUrl = "" ∨ username = "" then (.missingFields, st)
  else if googleApiKey = "" then (.serverMisconfigured, st)
  else if password = "session_token" then (.externalAuthPath, st)
  else if googleApiKey.length < 20 then (.serverMisconfigured, st)
  else
    let found := if restoreSession then
      findExistingSession H userAgent ipAddress erpnextUrl username none now st.store
    else none
    match found with
    | some sid =>
      if sid = "" then
        initCreatePath H newId erpnextUrl username password googleApiKey siteBaseUrl
          userAgent ipAddress now st
      else if verifyCredentials H st.store sid password googleApiKey then
        let store1 := updateSessionAccess st.store sid now
        match lookupA st.agents sid with
        | some _ => (.ok sid true, { st with store := store1 })
        | none =>
          match getSession store1 sid with
          | none => (.initFailed, { st with store := store1 })
          | some sd =>
            let agents1 := setA st.agents sid
              (buildHandle sd.erpnext_url sd.username password googleApiKey sid
                sd.site_base_url)
            (.ok sid true, { st with store := store1, agents := agents1 })
      else
        initCreatePath H newId erpnextUrl username password googleApiKey siteBaseUrl
          userAgent ipAddress now st
    | none =>
      initCreatePath H newId erpnextUrl username password googleApiKey siteBaseUrl
        userAgent ipAddress now st

/-- Outcome of the `/chat` endpoint. -/
inductive ChatOutcome where
  | rateLimited
  | missingParams
  | messageTooLong
  | sessionNotFound
  | reconnectRequired
  | ok (response : String)
deriving DecidableEq

/-- Python truthiness test used on request fields: absent or empty. -/
def isFalsy : Option String → Bool
  | none => true
  | some s => s == ""

/-- The value of the Python attribute `timedelta.seconds` of an elapsed time:
the remainder of the elapsed seconds within a whole day, never the total. -/
def timedeltaSeconds (delta : Int) : Int := delta.emod 86400

/-- The pruning step of the chat rate limiter: keep the timestamps whose
`timedelta.seconds` distance from now is below 60. -/
def pruneRecent (now : Int) (timestamps : List Int) : List Int :=
  timestamps.filter (fun t => timedeltaSeconds (now - t) < 60)

/-- The `/chat` endpoint after admission: parameter validation, message length
cap, session lookup, access touch, Live Resource Cache lookup, then the agent
call with redundant history storage.  The agent reply is the opaque function
`respond`; the two message uuids are the `newMsgId` parameters. -/
def chatCore (sessionIdOpt userInputOpt : Option String) (now : Int)
    (respond : String → String) (newMsgId1 newMsgId2 : String)
    (st : ServerState) : ChatOutcome × ServerState :=
  if isFalsy sessionIdOpt || isFalsy userInputOpt then (.missingParams, st)
  else
    let sid := sessionIdOpt.getD ""
    let userInput := pyStrip (userInputOpt.getD "")
    if userInput.length > 2000 then (.messageTooLong, st)
    else
      match getSession st.store sid with
      | none => (.sessionNotFound, st)
      | some _ =>
        let store1 := updateSessionAccess st.store sid now
        let st1 := { st with store := store1 }
        match lookupA st.agents sid with
        | none => (.reconnectRequired, st1)
        | some _ =>
          let response := respond userInput
          let store2 := storeChatMessage store1 newMsgId1 sid "user" userInput now
          let store3 := storeChatMessage store2 newMsgId2 sid "assistant" response now
          (.ok response, { st1 with store := store3 })

/-- The `/chat` endpoint (`chat_with_agent` in `aida_api_server.py`): the
sliding-window admission check runs first and, when the request is admitted,
records the current timestamp before any validation; a rejected request
leaves the whole state untouched. -/
def chatEndpoint (sessionIdOpt userInputOpt : Option String) (clientIp : String)
    (now : Int) (respond : String → String) (newMsgId1 newMsgId2 : String)
    (st : ServerState) : ChatOutcome × ServerState :=
  match lookupA st.rateLimits clientIp with
  | some lastRequests =>
    let recent := pruneRecent now lastRequests
    if recent.length ≥ 10 then (.rateLimited, st)
    else
      chatCore sessionIdOpt userInputOpt now respond newMsgId1 newMsgId2
        { st with rateLimits := setA st.rateLimits clientIp (recent ++ [now]) }
  | none =>
    chatCore sessionIdOpt userInputOpt now respond newMsgId1 newMsgId2
      { st with rateLimits := setA st.rateLimits clientIp [now] }

/-- Outcome of the `/clear_session` endpoint. -/
inductive ClearOutcome where
  | missingId
  | cleared
deriving DecidableEq

/-- The `/clear_session` endpoint (`clear_session` in `aida_api_server.py`):
deletes the Live Resource Cache entry when present and deliberately leaves
the durable session and message records alone. -/
def clearSessionEndpoint (sessionIdOpt : Option String) (st : ServerState) :
    ClearOutcome × ServerState :=
  if isFalsy sessionIdOpt then (.missingId, st)
  else
    let sid := sessionIdOpt.getD ""
    match lookupA st.agents sid with
    | some _ => (.cleared, { st with agents := eraseA st.agents sid })
    | none => (.cleared, st)

/-! Helper lemmas about the association lists. -/

theorem lookupA_setA_self {β : Type} (l : List (String × β)) (k : String) (v : β) :
    lookupA (setA l k v) k = some v := by
  simp [setA, lookupA]

theorem lookupA_setA_ne {β : Type} (l : List (String × β)) (k k2 : String) (v : β)
    (h : k ≠ k2) : lookupA (setA l k v) k2 = lookupA l k2 := by
  simp [setA, lookupA, h]

theorem lookupA_eraseA_self {β : Type} (l : List (String × β)) (k : String) :
    lookupA (eraseA l k) k = none := by
  induction l with
  | nil => rfl
  | cons p rest ih =>
    by_cases h : p.1 = k <;> simp [eraseA, lookupA, h, ih]

theorem lookupA_eraseA_ne {β : Type} (l : List (String × β)) (k k2 : String)
    (h : k ≠ k2) : lookupA (eraseA l k) k2 = lookupA l k2 := by
  induction l with
  | nil => rfl
  | cons p rest ih =>
    by_cases hp : p.1 = k
    · have hp2 : p.1 ≠ k2 := hp ▸ h
      simp [eraseA, lookupA, hp, hp2, h, ih]
    · simp [eraseA, lookupA, hp, ih]

/-! Helper lemmas about the sorted `find_one` model. -/

theorem bestByLastAccessed_mem {l : List Session} {s : Session}
    (h : bestByLastAccessed l = some s) : s ∈ l := by
  induction l with
  | nil => simp [bestByLastAccessed] at h
  | cons a rest ih =>
    cases hb : bestByLastAccessed rest with
    | none =>
      simp only [bestByLastAccessed, hb, Option.some.injEq] at h
      exact h ▸ List.mem_cons_self a rest
    | some b =>
      simp only [bestByLastAccessed, hb, Option.some.injEq] at h
      by_cases hcmp : b.last_accessed > a.last_accessed
      · rw [if_pos hcmp] at h
        exact List.mem_cons_of_mem a (ih (h ▸ hb))
      · rw [if_neg hcmp] at h
        exact h ▸ List.mem_cons_self a rest

theorem bestByLastAccessed_strict {l : List Session} {s : Session} (hs : s ∈ l)
    (hmax : ∀ t ∈ l, t ≠ s → t.last_accessed < s.last_accessed) :
    bestByLastAccessed l = some s := by
  induction l with
  | nil => cases hs
  | cons a rest ih =>
    rcases List.mem_cons.mp hs with rfl | hs2
    · cases hb : bestByLastAccessed rest with
      | none => simp [bestByLastAccessed, hb]
      | some b =>
        simp only [bestByLastAccessed, hb, Option.some.injEq]
        by_cases hbe : b = s
        · subst hbe
          exact ite_self b
        · have hlt := hmax b (List.mem_cons_of_mem s (bestByLastAccessed_mem hb)) hbe
          rw [if_neg (not_lt.mpr (le_of_lt hlt))]
    · have hrec : bestByLastAccessed rest = some s :=
        ih hs2 (fun t ht hne => hmax t (List.mem_cons_of_mem a ht) hne)
      simp only [bestByLastAccessed, hrec, Option.some.injEq]
      by_cases hae : a = s
      · subst hae
        exact ite_self a
      · have hlt := hmax a (List.mem_cons_self a rest) hae
        rw [if_pos hlt]

theorem findOneSorted_sound {p : Session → Bool} {l : List Session} {s : Session}
    (h : findOneSorted p l = some s) : s ∈ l ∧ p s = true :=
  List.mem_filter.mp (bestByLastAccessed_mem h)

theorem findOneSorted_strict {p : Session → Bool} {l : List Session} {s : Session}
    (hs : s ∈ l) (hp : p s = true)
    (hmax : ∀ t ∈ l, p t = true → t ≠ s → t.last_accessed < s.last_accessed) :
    findOneSorted p l = some s :=
  bestByLastAccessed_strict (List.mem_filter.mpr ⟨hs, hp⟩)
    (fun t ht hne =>
      hmax t (List.mem_filter.mp ht).1 (List.mem_filter.mp ht).2 hne)

/-! Helper lemmas about `find?` and `getSession`. -/

theorem find?_eq_some_of_unique {α : Type} {p : α → Bool} {l : List α} {a : α}
    (ha : a ∈ l) (hp : p a = true) (huniq : ∀ b ∈ l, p b = true → b = a) :
    l.find? p = some a := by
  induction l with
  | nil => cases ha
  | cons x rest ih =>
    by_cases hx : p x = true
    · have hxa : x = a := huniq x (List.mem_cons_self x rest) hx
      subst hxa
      simp [List.find?_cons, hx]
    · have hax : a ∈ rest := by
        rcases List.mem_cons.mp ha with rfl | h
        · exact absurd hp hx
        · exact h
      rw [List.find?_cons_of_neg _ hx]
      exact ih hax (fun b hb hpb => huniq b (List.mem_cons_of_mem x hb) hpb)

theorem getSession_eq_none_iff (st : Store) (sid : String) :
    getSession st sid = none ↔
      ∀ s ∈ st.sessions, ¬(s.session_id = sid ∧ s.is_active = true) := by
  simp [getSession, List.find?_eq_none]

theorem getSession_isSome_iff (st : Store) (sid : String) :
    (getSession st sid).isSome = true ↔
      ∃ s ∈ st.sessions, s.session_id = sid ∧ s.is_active = true := by
  simp [getSession, List.find?_isSome]

theorem getSession_sound {st : Store} {sid : String} {s : Session}
    (h : getSession st sid = some s) :
    s ∈ st.sessions ∧ s.session_id = sid ∧ s.is_active = true := by
  have hm := List.mem_of_find?_eq_some h
  have hp := List.find?_some h
  simp only [Bool.and_eq_true, beq_iff_eq] at hp
  exact ⟨hm, hp.1, hp.2⟩

theorem getSession_eq_of_unique {st : Store} {sid : String} {s : Session}
    (hs : s ∈ st.sessions) (hid : s.session_id = sid) (hact : s.is_active = true)
    (hU : (st.sessions.map (fun s => s.session_id)).Nodup) :
    getSession st sid = some s := by
  apply find?_eq_some_of_unique hs
  · simp [hid, hact]
  · intro b hb hpb
    simp only [Bool.and_eq_true, beq_iff_eq] at hpb
    by_contra hne
    have := List.inj_on_of_nodup_map hU hb hs (by rw [hpb.1, hid])
    exact hne this

/-! Unfolding lemmas for the boolean query filters. -/

theorem sessionMatches_iff (uid fp : String) (cutoff : Int) (s : Session) :
    sessionMatches uid fp cutoff s = true ↔
      s.user_identifier = uid ∧ s.browser_fingerprint = fp ∧
        cutoff ≤ s.last_accessed ∧ s.is_active = true := by
  simp [sessionMatches, and_assoc]

theorem sessionMatchesByUser_iff (u erpnextUrl : String) (cutoff : Int) (s : Session) :
    sessionMatchesByUser u erpnextUrl cutoff s = true ↔
      s.user_id = some u ∧ s.erpnext_url = erpnextUrl ∧
        cutoff ≤ s.last_accessed ∧ s.is_active = true := by
  simp [sessionMatchesByUser, and_assoc]

theorem expiredSessionFilter_iff (cutoff : Int) (s : Session) :
    expiredSessionFilter cutoff s = true ↔
      s.last_accessed < cutoff ∨ s.is_active = false := by
  simp [expiredSessionFilter]

/-- Whenever `find_existing_session` returns an id, the store holds an active
session with that id whose `last_accessed` is within 30 days of now. -/
theorem findExistingSession_sound {H : HashFns}
    {userAgent ipAddress erpnextUrl username : String} {userId : Option String}
    {now : Int} {st : Store} {sid : String}
    (h : findExistingSession H userAgent ipAddress erpnextUrl username userId now st = some sid) :
    ∃ s ∈ st.sessions, s.session_id = sid ∧ s.is_active = true ∧
      now - 30 * 86400 ≤ s.last_accessed := by
  have fallbackCase :
      ∀ p : Session → Bool,
        (∀ s, p s = true → s.is_active = true ∧ now - 30 * 86400 ≤ s.last_accessed) →
        (findOneSorted p st.sessions).map (fun s => s.session_id) = some sid →
        ∃ s ∈ st.sessions, s.session_id = sid ∧ s.is_active = true ∧
          now - 30 * 86400 ≤ s.last_accessed := by
    intro p hp hm
    cases hfo : findOneSorted p st.sessions with
    | none => rw [hfo] at hm; cases hm
    | some s =>
      rw [hfo] at hm
      injection hm with hm
      obtain ⟨hmem, hps⟩ := findOneSorted_sound hfo
      exact ⟨s, hmem, hm, (hp s hps).1, (hp s hps).2⟩
  cases userId with
  | none =>
    simp only [findExistingSession] at h
    refine fallbackCase _ (fun s hs => ?_) h
    have := (sessionMatches_iff _ _ _ s).mp hs
    exact ⟨this.2.2.2, this.2.2.1⟩
  | some u =>
    simp only [findExistingSession] at h
    cases hfo : findOneSorted
        (sessionMatchesByUser u erpnextUrl (now - 30 * 86400)) st.sessions with
    | some s =>
      rw [hfo] at h
      injection h with h
      obtain ⟨hmem, hps⟩ := findOneSorted_sound hfo
      have := (sessionMatchesByUser_iff _ _ _ s).mp hps
      exact ⟨s, hmem, h, this.2.2.2, this.2.2.1⟩
    | none =>
      rw [hfo] at h
      refine fallbackCase _ (fun s hs => ?_) h
      have := (sessionMatches_iff _ _ _ s).mp hs
      exact ⟨this.2.2.2, this.2.2.1⟩

/-! Helper lemmas about `updateFirstSession`. -/

theorem updateFirstSession_eq_map {sid : String} {t : Int} {l : List Session}
    (hU : (l.map (fun s => s.session_id)).Nodup) :
    updateFirstSession sid (fun s => { s with last_accessed := t }) l =
      l.map (fun s => if s.session_id = sid then { s with last_accessed := t } else s) := by
  induction l with
  | nil => rfl
  | cons a rest ih =>
    rw [List.map_cons, List.nodup_cons] at hU
    by_cases h : a.session_id = sid
    · simp only [updateFirstSession, if_pos h, List.map_cons]
      congr 1
      have hall : ∀ s ∈ rest,
          (if s.session_id = sid then { s with last_accessed := t } else s) = s := by
        intro s hs
        have hne : s.session_id ≠ sid := by
          intro he
          exact hU.1 (List.mem_map.mpr ⟨s, hs, by rw [he, h]⟩)
        rw [if_neg hne]
      exact ((List.map_congr_left hall).trans (List.map_id rest)).symm
    · simp only [updateFirstSession, if_neg h, List.map_cons]
      exact List.cons_eq_cons.mpr ⟨rfl, ih hU.2⟩

theorem map_session_id_updateFirst (sid : String) (t : Int) (l : List Session) :
    ((updateFirstSession sid (fun s => { s with last_accessed := t }) l).map
        (fun s => s.session_id)) = l.map (fun s => s.session_id) := by
  induction l with
  | nil => rfl
  | cons a rest ih =>
    by_cases h : a.session_id = sid
    · simp [updateFirstSession, if_pos h]
    · simp only [updateFirstSession, if_neg h, List.map_cons]
      exact List.cons_eq_cons.mpr ⟨rfl, ih⟩

theorem getSession_updateSessionAccess {st : Store} {sid : String} {s : Session} {t : Int}
    (hU : (st.sessions.map (fun s => s.session_id)).Nodup)
    (h : getSession st sid = some s) :
    getSession (updateSessionAccess st sid t) sid = some { s with last_accessed := t } := by
  obtain ⟨hm, hid, hact⟩ := getSession_sound h
  have hmap := @updateFirstSession_eq_map sid t st.sessions hU
  have hmem : ({ s with last_accessed := t } : Session) ∈
      (updateSessionAccess st sid t).sessions := by
    show _ ∈ updateFirstSession sid _ st.sessions
    rw [hmap]
    refine List.mem_map.mpr ⟨s, hm, ?_⟩
    rw [if_pos hid]
  have hU2 : ((updateSessionAccess st sid t).sessions.map (fun s => s.session_id)).Nodup := by
    show (List.map _ (updateFirstSession sid _ st.sessions)).Nodup
    rw [map_session_id_updateFirst]
    exact hU
  exact getSession_eq_of_unique hmem hid hact hU2

/-! Helper lemmas about lowercasing and slash stripping. -/

theorem char_toLower_eq_slash {c : Char} (h : c.toLower = '/') : c = '/' := by
  simp only [Char.toLower] at h
  split at h
  · next hc =>
    have h47 : (Char.ofNat (c.toNat + 32)).toNat = 47 := by rw [h]; rfl
    have hvalid : (c.toNat + 32).isValidChar := by
      refine Or.inl ?_
      omega
    rw [Char.ofNat, dif_pos hvalid] at h47
    have he : (Char.ofNatAux (c.toNat + 32) hvalid).toNat = c.toNat + 32 := rfl
    omega
  · exact h

theorem dropWhile_slash_map_toLower (l : List Char) :
    (l.map Char.toLower).dropWhile (fun c => c = '/') =
      (l.dropWhile (fun c => c = '/')).map Char.toLower := by
  induction l with
  | nil => rfl
  | cons c rest ih =>
    by_cases hc : c = '/'
    · subst hc
      have hl : ('/' : Char).toLower = '/' := by decide
      simp [List.dropWhile_cons, hl, ih]
    · have hc2 : c.toLower ≠ '/' := fun he => hc (char_toLower_eq_slash he)
      simp [List.dropWhile_cons, hc, hc2]

theorem rstripSlashes_pyLower (s : String) :
    rstripSlashes (pyLower s) = pyLower (rstripSlashes s) := by
  show (⟨((s.data.map Char.toLower).reverse.dropWhile (fun c => c = '/')).reverse⟩ : String) = _
  rw [← List.map_reverse, dropWhile_slash_map_toLower, ← List.map_reverse]
  rfl

theorem rstripSlashes_append_slash (s : String) :
    rstripSlashes (s ++ "/") = rstripSlashes s := by
  have hdata : (s ++ "/").data = s.data ++ ['/'] := by
    cases s
    rfl
  show (⟨((s ++ "/").data.reverse.dropWhile (fun c => c = '/')).reverse⟩ : String) = _
  rw [hdata, List.reverse_append]
  simp [List.dropWhile_cons]
  rfl

/-! Claim theorems and their witnesses. -/

/-- Concrete digest functions used by the closed witnesses: the identity, a
legitimate instance of the opaque digest parameter. -/
def idHash : HashFns := ⟨fun s => s, fun s => s⟩

/-- C9 (counterexample): the source computes the tenant key from the whole
URL lowercased and keeps only the first 16 characters of the digest, while
the claim describes the digest of the URL with only the host lowercased; at
username `a` and URL `x://H/P` the two differ, even after truncating the
claimed value. -/
theorem tenant_key_spec_mismatch_cex :
    userIdentifier idHash "a" "x://H/P" ≠ tenantKeySpec idHash "a" "x://H/P" ∧
    userIdentifier idHash "a" "x://H/P" ≠ strTake (tenantKeySpec idHash "a" "x://H/P") 16 := by
  decide

/-- C9 (amended): the tenant key is the first 16 characters of the digest of
`lowercase(username) + "@" + normalize(url)` where normalization strips
trailing slashes and lowercases the whole remaining URL; consequently a
trailing slash or a letter-case change anywhere in the URL leaves the tenant
key unchanged. -/
theorem tenant_key_normalization (H : HashFns) (u e e2 : String) :
    userIdentifier H u e =
      strTake (H.sha (pyLower u ++ "@" ++ pyLower (rstripSlashes e))) 16 ∧
    userIdentifier H u (e ++ "/") = userIdentifier H u e ∧
    (pyLower e2 = pyLower e → userIdentifier H u e2 = userIdentifier H u e) := by
  refine ⟨rfl, ?_, ?_⟩
  · unfold userIdentifier
    rw [rstripSlashes_append_slash]
  · intro h
    unfold userIdentifier
    rw [← rstripSlashes_pyLower, ← rstripSlashes_pyLower, h]

/-- C9 (witness): two URLs differing only in letter case give one tenant key. -/
theorem tenant_key_normalization_witness :
    userIdentifier idHash "a" "x://B/c" = userIdentifier idHash "a" "x://b/C" :=
  (tenant_key_normalization idHash "a" "x://b/C" "x://B/c").2.2 (by decide)

/-- C8: the `/clear_session` endpoint removes only the Live Resource Cache
entry of the given session id: the durable store (sessions, flags,
timestamps, messages) is unchanged, the cache entry for the id is gone, every
other cache entry is untouched, and the chat history of the id remains
retrievable afterwards. -/
theorem clear_session_evicts_cache_only (sid : String) (st : ServerState)
    (hsid : sid ≠ "") :
    (clearSessionEndpoint (some sid) st).2.store = st.store ∧
    lookupA (clearSessionEndpoint (some sid) st).2.agents sid = none ∧
    (∀ k, k ≠ sid → lookupA (clearSessionEndpoint (some sid) st).2.agents k =
      lookupA st.agents k) ∧
    (∀ lim, getChatHistory (clearSessionEndpoint (some sid) st).2.store sid lim =
      getChatHistory st.store sid lim) := by
  have hfal : isFalsy (some sid) = false := by simp [isFalsy, hsid]
  cases hl : lookupA st.agents sid with
  | some a =>
    have heq : clearSessionEndpoint (some sid) st =
        (.cleared, { st with agents := eraseA st.agents sid }) := by
      simp only [clearSessionEndpoint, hfal, Bool.false_eq_true, if_false, Option.getD_some, hl]
    rw [heq]
    exact ⟨rfl, lookupA_eraseA_self st.agents sid,
      fun k hk => lookupA_eraseA_ne st.agents sid k (fun he => hk he.symm),
      fun lim => rfl⟩
  | none =>
    have heq : clearSessionEndpoint (some sid) st = (.cleared, st) := by
      simp only [clearSessionEndpoint, hfal, Bool.false_eq_true, if_false, Option.getD_some, hl]
    rw [heq]
    exact ⟨rfl, hl, fun k hk => rfl, fun lim => rfl⟩

/-- C8 (witness): clearing a concrete cached session leaves the store intact
and empties its cache entry. -/
theorem clear_session_evicts_cache_only_witness :
    (clearSessionEndpoint (some "S1")
        ⟨⟨[], []⟩, [("S1", buildHandle "u" "alice" "pw" "k" "S1" "u")], []⟩).2.store =
      (⟨[], []⟩ : Store) ∧
    lookupA (clearSessionEndpoint (some "S1")
        ⟨⟨[], []⟩, [("S1", buildHandle "u" "alice" "pw" "k" "S1" "u")], []⟩).2.agents "S1" =
      none :=
  ⟨(clear_session_evicts_cache_only "S1"
      ⟨⟨[], []⟩, [("S1", buildHandle "u" "alice" "pw" "k" "S1" "u")], []⟩ (by decide)).1,
   (clear_session_evicts_cache_only "S1"
      ⟨⟨[], []⟩, [("S1", buildHandle "u" "alice" "pw" "k" "S1" "u")], []⟩ (by decide)).2.1⟩

/-- A server state holding one valid session with a live agent whose client
address made ten admitted chat requests at time 0. -/
def dayOldLimiterState : ServerState :=
  { store := ⟨[⟨"S1", none, "uid", "u", "alice", "ph", "kh", "u", 0, 0, "fp", true⟩], []⟩
    agents := [("S1", buildHandle "u" "alice" "pw" "k" "S1" "u")]
    rateLimits := [("10.0.0.1", List.replicate 10 0)] }

/-- C6 (code bug evaluation): the chat rate limiter measures age with the
Python attribute `timedelta.seconds`, the day remainder of the elapsed time.
Ten requests recorded at time 0 are therefore still counted as recent exactly
one day (86400 s, far more than 60 s) later, and the next request from that
address is rejected with RateLimited even though the claimed sliding window
says it must be admitted. -/
theorem rate_limiter_day_wraparound_rejects :
    pruneRecent 86400 (List.replicate 10 0) = List.replicate 10 0 ∧
    (chatEndpoint (some "S1") (some "hello") "10.0.0.1" 86400 (fun _ => "ok") "m1" "m2"
      dayOldLimiterState).1 = .rateLimited := by
  decide

/-- A session accessed 31 days before the sweep time 2678400. -/
def cexExpiredSession : Session :=
  ⟨"SO", none, "uid", "u", "alice", "ph", "kh", "u", 0, 0, "fp", true⟩

/-- C4 (counterexample): on a store holding one 31-day-old session, the sweep
deletes it (the session list becomes empty) yet returns `none` — the Python
method has no return statement — not the claimed count of 1. -/
theorem sweep_returns_no_count_cex :
    (cleanupExpiredSessions 30 2678400 ⟨[cexExpiredSession], []⟩).1.sessions = [] ∧
    (cleanupExpiredSessions 30 2678400 ⟨[cexExpiredSession], []⟩).2 = none ∧
    (cleanupExpiredSessions 30 2678400 ⟨[cexExpiredSession], []⟩).2 ≠ some 1 := by
  decide

/-- C4 (amended): when session ids are unique, the sweep keeps exactly the
sessions that are neither older than `maxAgeDays` nor inactive, keeps exactly
the messages whose session is not deleted, and returns no count (the count is
only logged). -/
theorem sweep_deletes_exactly_expired (d : Nat) (now : Int) (st : Store)
    (hU : (st.sessions.map (fun s => s.session_id)).Nodup) :
    (∀ s, s ∈ (cleanupExpiredSessions d now st).1.sessions ↔
      (s ∈ st.sessions ∧
        ¬(s.last_accessed < now - (d : Int) * 86400 ∨ s.is_active = false))) ∧
    (∀ m, m ∈ (cleanupExpiredSessions d now st).1.messages ↔
      (m ∈ st.messages ∧
        ¬∃ s ∈ st.sessions, s.session_id = m.session_id ∧
          (s.last_accessed < now - (d : Int) * 86400 ∨ s.is_active = false))) ∧
    (cleanupExpiredSessions d now st).2 = none := by
  have hcontains : ∀ x : String,
      (((st.sessions.filter (expiredSessionFilter (now - (d : Int) * 86400))).map
        (fun s => s.session_id)).contains x = true) ↔
      ∃ s ∈ st.sessions, s.session_id = x ∧
        (s.last_accessed < now - (d : Int) * 86400 ∨ s.is_active = false) := by
    intro x
    rw [List.elem_iff]
    constructor
    · intro hx
      obtain ⟨s, hs, hsx⟩ := List.mem_map.mp hx
      obtain ⟨hsm, hsp⟩ := List.mem_filter.mp hs
      exact ⟨s, hsm, hsx, (expiredSessionFilter_iff _ s).mp hsp⟩
    · rintro ⟨s, hsm, hsx, hcond⟩
      exact List.mem_map.mpr
        ⟨s, List.mem_filter.mpr ⟨hsm, (expiredSessionFilter_iff _ s).mpr hcond⟩, hsx⟩
  by_cases hemp :
      (st.sessions.filter (expiredSessionFilter (now - (d : Int) * 86400))).isEmpty = true
  · have hno : ∀ s ∈ st.sessions,
        ¬(s.last_accessed < now - (d : Int) * 86400 ∨ s.is_active = false) := by
      intro s hs hcond
      have hmem : s ∈ st.sessions.filter (expiredSessionFilter (now - (d : Int) * 86400)) :=
        List.mem_filter.mpr ⟨hs, (expiredSessionFilter_iff _ s).mpr hcond⟩
      rw [List.isEmpty_iff] at hemp
      rw [hemp] at hmem
      cases hmem
    have heq : cleanupExpiredSessions d now st = (st, none) := by
      simp only [cleanupExpiredSessions, hemp, if_true]
    rw [heq]
    refine ⟨fun s => ?_, fun m => ?_, rfl⟩
    · exact ⟨fun hs => ⟨hs, hno s hs⟩, fun h => h.1⟩
    · refine ⟨fun hm => ⟨hm, ?_⟩, fun h => h.1⟩
      rintro ⟨s, hsm, _, hcond⟩
      exact hno s hsm hcond
  · have heq : cleanupExpiredSessions d now st =
        ({ sessions := st.sessions.filter (fun s =>
             !(((st.sessions.filter (expiredSessionFilter (now - (d : Int) * 86400))).map
               (fun s => s.session_id)).contains s.session_id))
           messages := st.messages.filter (fun m =>
             !(((st.sessions.filter (expiredSessionFilter (now - (d : Int) * 86400))).map
               (fun s => s.session_id)).contains m.session_id)) }, none) := by
      simp only [cleanupExpiredSessions, hemp, Bool.false_eq_true, if_false]
    rw [heq]
    refine ⟨fun s => ?_, fun m => ?_, rfl⟩
    · rw [List.mem_filter]
      constructor
      · rintro ⟨hs, hb⟩
        refine ⟨hs, fun hcond => ?_⟩
        have hin : (((st.sessions.filter (expiredSessionFilter (now - (d : Int) * 86400))).map
            (fun s => s.session_id)).contains s.session_id) = true :=
          (hcontains _).mpr ⟨s, hs, rfl, hcond⟩
        rw [hin] at hb
        cases hb
      · rintro ⟨hs, hcond⟩
        refine ⟨hs, ?_⟩
        rw [Bool.not_eq_true']
        cases hc : (((st.sessions.filter (expiredSessionFilter (now - (d : Int) * 86400))).map
            (fun s => s.session_id)).contains s.session_id) with
        | false => rfl
        | true =>
          obtain ⟨t, htm, htid, htcond⟩ := (hcontains _).mp hc
          have hts : t = s := List.inj_on_of_nodup_map hU htm hs htid
          exact absurd (hts ▸ htcond) hcond
    · rw [List.mem_filter]
      constructor
      · rintro ⟨hm, hb⟩
        refine ⟨hm, fun hcond => ?_⟩
        have hin : (((st.sessions.filter (expiredSessionFilter (now - (d : Int) * 86400))).map
            (fun s => s.session_id)).contains m.session_id) = true := by
          obtain ⟨s, hsm, hsid, hscond⟩ := hcond
          exact (hcontains _).mpr ⟨s, hsm, hsid, hscond⟩
        rw [hin] at hb
        cases hb
      · rintro ⟨hm, hcond⟩
        refine ⟨hm, ?_⟩
        rw [Bool.not_eq_true']
        cases hc : (((st.sessions.filter (expiredSessionFilter (now - (d : Int) * 86400))).map
            (fun s => s.session_id)).contains m.session_id) with
        | false => rfl
        | true =>
          obtain ⟨t, htm, htid, htcond⟩ := (hcontains _).mp hc
          exact absurd ⟨t, htm, htid, htcond⟩ hcond

/-- A store with one expired session, one fresh session, and one message of
each, at sweep time 2678400 (31 days). -/
def wSweepStore : Store :=
  ⟨[⟨"SO", none, "uid", "u", "alice", "ph", "kh", "u", 0, 0, "fp", true⟩,
    ⟨"SN", none, "uid", "u", "alice", "ph", "kh", "u", 0, 2678400, "fp", true⟩],
   [⟨"mo", "SO", none, "uid", 1, "user", "hi", none⟩,
    ⟨"mn", "SN", none, "uid", 1, "user", "hi", none⟩]⟩

/-- C4 (witness): on the concrete two-session store, the fresh session and
its message survive the sweep. -/
theorem sweep_deletes_exactly_expired_witness :
    (⟨"SN", none, "uid", "u", "alice", "ph", "kh", "u", 0, 2678400, "fp", true⟩ : Session) ∈
      (cleanupExpiredSessions 30 2678400 wSweepStore).1.sessions ∧
    (⟨"mn", "SN", none, "uid", 1, "user", "hi", none⟩ : Message) ∈
      (cleanupExpiredSessions 30 2678400 wSweepStore).1.messages :=
  ⟨((sweep_deletes_exactly_expired 30 2678400 wSweepStore (by decide)).1 _).mpr (by decide),
   ((sweep_deletes_exactly_expired 30 2678400 wSweepStore (by decide)).2.1 _).mpr (by decide)⟩

/-- C5: the Restoration Matcher never returns a session whose `last_accessed`
lies strictly before now minus the 30-day freshness window, and an active
session inside the window that matches the lookup keys is eligible: on a
store holding it, the matcher returns exactly it. -/
theorem restoration_window_boundary (H : HashFns)
    (userAgent ipAddress erpnextUrl username : String) (userId : Option String)
    (now : Int) (st : Store) :
    (∀ sid, findExistingSession H userAgent ipAddress erpnextUrl username userId now st =
        some sid →
      ∃ s ∈ st.sessions, s.session_id = sid ∧ s.is_active = true ∧
        now - 30 * 86400 ≤ s.last_accessed) ∧
    (∀ s : Session,
      s.user_identifier = userIdentifier H username erpnextUrl →
      s.browser_fingerprint = browserFingerprint H userAgent ipAddress →
      s.is_active = true → now - 30 * 86400 ≤ s.last_accessed →
      findExistingSession H userAgent ipAddress erpnextUrl username none now
        ⟨[s], st.messages⟩ = some s.session_id) := by
  refine ⟨fun sid h => findExistingSession_sound h, fun s h1 h2 h3 h4 => ?_⟩
  have hp : sessionMatches (userIdentifier H username erpnextUrl)
      (browserFingerprint H userAgent ipAddress) (now - 30 * 86400) s = true :=
    (sessionMatches_iff _ _ _ _).mpr ⟨h1, h2, h4, h3⟩
  have hone : findOneSorted (sessionMatches (userIdentifier H username erpnextUrl)
      (browserFingerprint H userAgent ipAddress) (now - 30 * 86400)) [s] = some s := by
    refine findOneSorted_strict (List.mem_singleton.mpr rfl) hp ?_
    intro t ht _ hne
    exact absurd (List.mem_singleton.mp ht) hne
  simp only [findExistingSession, hone]
  rfl

/-- A session one second inside the freshness window at time 2592000, with
the identifier and fingerprint that `idHash` produces for user `alice` at
URL `u` from device `UA` at address `ip`. -/
def wWindowSession : Session :=
  ⟨"S1", none, "alice@u", "u", "alice", "ph", "kh", "u", 1, 1, "UA:ip", true⟩

/-- C5 (witness): the matcher returns the concrete in-window session. -/
theorem restoration_window_boundary_witness :
    findExistingSession idHash "UA" "ip" "u" "alice" none 2592000
      ⟨[wWindowSession], []⟩ = some "S1" :=
  (restoration_window_boundary idHash "UA" "ip" "u" "alice" none 2592000
    ⟨[], []⟩).2 wWindowSession (by decide) (by decide) (by decide) (by decide)

/-- C7: when every session record carrying an id is inactive, lookup returns
nothing and the Restoration Matcher never returns that id, yet the history
query still answers for the id from the messages alone, and a sweep then
removes those messages. -/
theorem inactive_session_hidden_but_history_kept (st : Store) (sid : String)
    (lim d : Nat) (now : Int)
    (hex : ∃ s ∈ st.sessions, s.session_id = sid)
    (hin : ∀ s ∈ st.sessions, s.session_id = sid → s.is_active = false) :
    getSession st sid = none ∧
    (∀ H userAgent ipAddress erpnextUrl username userId t r,
      findExistingSession H userAgent ipAddress erpnextUrl username userId t st = some r →
      r ≠ sid) ∧
    (∀ sessions2, getChatHistory ⟨sessions2, st.messages⟩ sid lim =
      getChatHistory st sid lim) ∧
    (cleanupExpiredSessions d now st).1.messages.filter (fun m => m.session_id == sid) = [] := by
  refine ⟨?_, ?_, fun sessions2 => rfl, ?_⟩
  · rw [getSession_eq_none_iff]
    rintro s hs ⟨hsid, hact⟩
    have := hin s hs hsid
    rw [this] at hact
    cases hact
  · intro H ua ip url un uid t r h hrs
    subst hrs
    obtain ⟨s, hs, hsid, hact, _⟩ := findExistingSession_sound h
    have := hin s hs hsid
    rw [this] at hact
    cases hact
  · obtain ⟨s0, hs0, hs0id⟩ := hex
    have hs0in : s0 ∈ st.sessions.filter (expiredSessionFilter (now - (d : Int) * 86400)) :=
      List.mem_filter.mpr
        ⟨hs0, (expiredSessionFilter_iff _ _).mpr (Or.inr (hin s0 hs0 hs0id))⟩
    rw [List.filter_eq_nil_iff]
    intro m hm
    cases hb : (st.sessions.filter (expiredSessionFilter (now - (d : Int) * 86400))).isEmpty with
    | true =>
      rw [List.isEmpty_iff] at hb
      rw [hb] at hs0in
      cases hs0in
    | false =>
      have heq : cleanupExpiredSessions d now st =
          ({ sessions := st.sessions.filter (fun s =>
               !(((st.sessions.filter (expiredSessionFilter (now - (d : Int) * 86400))).map
                 (fun s => s.session_id)).contains s.session_id))
             messages := st.messages.filter (fun m =>
               !(((st.sessions.filter (expiredSessionFilter (now - (d : Int) * 86400))).map
                 (fun s => s.session_id)).contains m.session_id)) }, none) := by
        simp only [cleanupExpiredSessions, hb, Bool.false_eq_true, if_false]
      rw [heq] at hm
      obtain ⟨_, hbn⟩ := List.mem_filter.mp hm
      simp only [beq_iff_eq]
      intro hmsid
      have hin2 : (((st.sessions.filter (expiredSessionFilter (now - (d : Int) * 86400))).map
          (fun s => s.session_id)).contains m.session_id) = true :=
        List.elem_iff.mpr (List.mem_map.mpr ⟨s0, hs0in, by rw [hs0id, hmsid]⟩)
      rw [hin2] at hbn
      cases hbn

/-- A store whose only session is inactive but still has one stored message. -/
def wInactiveStore : Store :=
  ⟨[⟨"S1", none, "uid", "u", "alice", "ph", "kh", "u", 0, 2678400, "fp", false⟩],
   [⟨"m1", "S1", none, "uid", 1, "user", "hi", none⟩]⟩

/-- C7 (witness): the inactive session is invisible to lookup while its
history is independent of the session list. -/
theorem inactive_session_hidden_but_history_kept_witness :
    getSession wInactiveStore "S1" = none ∧
    getChatHistory ⟨[], wInactiveStore.messages⟩ "S1" 20 =
      getChatHistory wInactiveStore "S1" 20 :=
  ⟨(inactive_session_hidden_but_history_kept wInactiveStore "S1" 20 30 2678400
      (by decide) (by decide)).1,
   (inactive_session_hidden_but_history_kept wInactiveStore "S1" 20 30 2678400
      (by decide) (by decide)).2.2.1 []⟩

/-- A request admitted by the rate limiter reaches `chatCore`, which never
touches the rate table or the agent cache and never reports RateLimited. -/
theorem chatCore_frame (a b : Option String) (now : Int) (respond : String → String)
    (m1 m2 : String) (st : ServerState) :
    (chatCore a b now respond m1 m2 st).2.rateLimits = st.rateLimits ∧
    (chatCore a b now respond m1 m2 st).1 ≠ .rateLimited := by
  simp only [chatCore]
  split
  · exact ⟨rfl, fun h => nomatch h⟩
  · split
    · exact ⟨rfl, fun h => nomatch h⟩
    · split
      · exact ⟨rfl, fun h => nomatch h⟩
      · split
        · exact ⟨rfl, fun h => nomatch h⟩
        · exact ⟨rfl, fun h => nomatch h⟩

/-- Under an admitting rate table, the chat endpoint is `chatCore` on the
state whose rate table has the pruned timestamps plus the current one. -/
theorem chatEndpoint_admitted (sid input : Option String) (clientIp : String)
    (now : Int) (respond : String → String) (m1 m2 : String) (st : ServerState)
    (hrate : ∀ l, lookupA st.rateLimits clientIp = some l →
      (pruneRecent now l).length < 10) :
    chatEndpoint sid input clientIp now respond m1 m2 st =
      chatCore sid input now respond m1 m2
        { st with
          rateLimits :=
            setA st.rateLimits clientIp
              (pruneRecent now ((lookupA st.rateLimits clientIp).getD []) ++ [now]) } := by
  cases hl : lookupA st.rateLimits clientIp with
  | none => simp only [chatEndpoint, hl, Option.getD_none, pruneRecent, List.filter_nil,
      List.nil_append]
  | some l =>
    have hlt := hrate l hl
    simp only [chatEndpoint, hl, if_neg (not_le.mpr hlt), Option.getD_some]

/-- The branches of `chatCore` once validation passes: missing session gives
NotFound, present session with no cached agent gives ReconnectRequired while
only touching the access time. -/
theorem chatCore_session_branches (sid input : String) (now : Int)
    (respond : String → String) (m1 m2 : String) (st : ServerState)
    (hsid : sid ≠ "") (hinput : input ≠ "") (hlen : (pyStrip input).length ≤ 2000) :
    (getSession st.store sid = none →
      chatCore (some sid) (some input) now respond m1 m2 st = (.sessionNotFound, st)) ∧
    (∀ s, getSession st.store sid = some s → lookupA st.agents sid = none →
      chatCore (some sid) (some input) now respond m1 m2 st =
        (.reconnectRequired, { st with store := updateSessionAccess st.store sid now })) := by
  have hfal : (isFalsy (some sid) || isFalsy (some input)) = false := by
    simp [isFalsy, hsid, hinput]
  constructor
  · intro hg
    simp only [chatCore, hfal, Bool.false_eq_true, if_false, Option.getD_some,
      if_neg (not_lt.mpr hlen), hg]
  · intro s hg ha
    simp only [chatCore, hfal, Bool.false_eq_true, if_false, Option.getD_some,
      if_neg (not_lt.mpr hlen), hg, ha]

/-- Combined form of the two previous lemmas, phrased on `chatEndpoint`. -/
theorem chatEndpoint_session_branches (sid input clientIp : String) (now : Int)
    (respond : String → String) (m1 m2 : String) (st : ServerState)
    (hsid : sid ≠ "") (hinput : input ≠ "") (hlen : (pyStrip input).length ≤ 2000)
    (hrate : ∀ l, lookupA st.rateLimits clientIp = some l →
      (pruneRecent now l).length < 10) :
    (getSession st.store sid = none →
      (chatEndpoint (some sid) (some input) clientIp now respond m1 m2 st).1 =
        .sessionNotFound) ∧
    (∀ s, getSession st.store sid = some s → lookupA st.agents sid = none →
      (chatEndpoint (some sid) (some input) clientIp now respond m1 m2 st).1 =
        .reconnectRequired ∧
      (chatEndpoint (some sid) (some input) clientIp now respond m1 m2 st).2.agents =
        st.agents) := by
  rw [chatEndpoint_admitted _ _ _ _ _ _ _ _ hrate]
  constructor
  · intro hg
    have hb := (chatCore_session_branches sid input now respond m1 m2
      { st with
        rateLimits :=
          setA st.rateLimits clientIp
            (pruneRecent now ((lookupA st.rateLimits clientIp).getD []) ++ [now]) }
      hsid hinput hlen).1 hg
    rw [hb]
  · intro s hg ha
    have hb := (chatCore_session_branches sid input now respond m1 m2
      { st with
        rateLimits :=
          setA st.rateLimits clientIp
            (pruneRecent now ((lookupA st.rateLimits clientIp).getD []) ++ [now]) }
      hsid hinput hlen).2 s hg ha
    rw [hb]
    exact ⟨rfl, rfl⟩

/-- C1: for an admitted, well-formed send request: when no active durable
session carries the id the outcome is NotFound; when such a session exists
but the Live Resource Cache has no handle the outcome is the distinguished
ReconnectRequired and the cache is left untouched (no silent reconstruction);
after `clearAll` the outcome is NotFound; after clearing only the cache the
outcome is ReconnectRequired. -/
theorem chat_session_lookup_errors (sid input clientIp : String) (now : Int)
    (respond : String → String) (m1 m2 : String) (st : ServerState)
    (hsid : sid ≠ "") (hinput : input ≠ "") (hlen : (pyStrip input).length ≤ 2000)
    (hrate : ∀ l, lookupA st.rateLimits clientIp = some l →
      (pruneRecent now l).length < 10) :
    ((¬∃ s ∈ st.store.sessions, s.session_id = sid ∧ s.is_active = true) →
      (chatEndpoint (some sid) (some input) clientIp now respond m1 m2 st).1 =
        .sessionNotFound) ∧
    ((∃ s ∈ st.store.sessions, s.session_id = sid ∧ s.is_active = true) →
      lookupA st.agents sid = none →
      (chatEndpoint (some sid) (some input) clientIp now respond m1 m2 st).1 =
        .reconnectRequired ∧
      (chatEndpoint (some sid) (some input) clientIp now respond m1 m2 st).2.agents =
        st.agents) ∧
    ((chatEndpoint (some sid) (some input) clientIp now respond m1 m2
        { st with store := clearAllSessions st.store }).1 = .sessionNotFound) ∧
    ((∃ s ∈ st.store.sessions, s.session_id = sid ∧ s.is_active = true) →
      (chatEndpoint (some sid) (some input) clientIp now respond m1 m2
        { st with agents := [] }).1 = .reconnectRequired) := by
  refine ⟨?_, ?_, ?_, ?_⟩
  · intro hno
    have hg : getSession st.store sid = none := by
      rw [getSession_eq_none_iff]
      rintro s hs hcon
      exact hno ⟨s, hs, hcon⟩
    exact (chatEndpoint_session_branches sid input clientIp now respond m1 m2 st
      hsid hinput hlen hrate).1 hg
  · intro hex ha
    have hsome : (getSession st.store sid).isSome = true := (getSession_isSome_iff _ _).mpr hex
    obtain ⟨s, hg⟩ := Option.isSome_iff_exists.mp hsome
    exact (chatEndpoint_session_branches sid input clientIp now respond m1 m2 st
      hsid hinput hlen hrate).2 s hg ha
  · exact (chatEndpoint_session_branches sid input clientIp now respond m1 m2
      { st with store := clearAllSessions st.store } hsid hinput hlen hrate).1 rfl
  · intro hex
    have hsome : (getSession st.store sid).isSome = true := (getSession_isSome_iff _ _).mpr hex
    obtain ⟨s, hg⟩ := Option.isSome_iff_exists.mp hsome
    exact ((chatEndpoint_session_branches sid input clientIp now respond m1 m2
      { st with agents := [] } hsid hinput hlen hrate).2 s hg rfl).1

/-- A server state with one active session, an empty agent cache, and an
empty rate table. -/
def wChatState : ServerState :=
  ⟨⟨[⟨"S1", none, "uid", "u", "alice", "ph", "kh", "u", 0, 0, "fp", true⟩], []⟩, [], []⟩

/-- C1 (witness): on the concrete state, a send for the durable session with
no live handle yields ReconnectRequired and a send for an unknown id yields
NotFound. -/
theorem chat_session_lookup_errors_witness :
    (chatEndpoint (some "S1") (some "hi") "ip" 0 (fun s => s) "m1" "m2" wChatState).1 =
      .reconnectRequired ∧
    (chatEndpoint (some "S2") (some "hi") "ip" 0 (fun s => s) "m1" "m2" wChatState).1 =
      .sessionNotFound :=
  ⟨((chat_session_lookup_errors "S1" "hi" "ip" 0 (fun s => s) "m1" "m2" wChatState
      (by decide) (by decide) (by decide) (fun l hl => nomatch hl)).2.1
      (by decide) rfl).1,
   (chat_session_lookup_errors "S2" "hi" "ip" 0 (fun s => s) "m1" "m2" wChatState
      (by decide) (by decide) (by decide) (fun l hl => nomatch hl)).1 (by decide)⟩

/-- C10: the admission bookkeeping of the chat endpoint happens before any
validation: an admitted request always appends its timestamp to the pruned
list for its address — also when it goes on to fail validation or session
lookup — and a request rejected by the limiter leaves the whole state
unchanged and records nothing. -/
theorem chat_rate_budget_accounting (sessionIdOpt userInputOpt : Option String)
    (clientIp : String) (now : Int) (respond : String → String) (m1 m2 : String)
    (st : ServerState) :
    (((pruneRecent now ((lookupA st.rateLimits clientIp).getD [])).length < 10) →
      lookupA (chatEndpoint sessionIdOpt userInputOpt clientIp now respond m1 m2
          st).2.rateLimits clientIp =
        some (pruneRecent now ((lookupA st.rateLimits clientIp).getD []) ++ [now]) ∧
      (chatEndpoint sessionIdOpt userInputOpt clientIp now respond m1 m2 st).1 ≠
        .rateLimited) ∧
    ((10 ≤ (pruneRecent now ((lookupA st.rateLimits clientIp).getD [])).length) →
      chatEndpoint sessionIdOpt userInputOpt clientIp now respond m1 m2 st =
        (.rateLimited, st)) := by
  constructor
  · intro hlt
    have hrate : ∀ l, lookupA st.rateLimits clientIp = some l →
        (pruneRecent now l).length < 10 := by
      intro l hl
      rw [hl] at hlt
      exact hlt
    rw [chatEndpoint_admitted _ _ _ _ _ _ _ _ hrate]
    constructor
    · rw [(chatCore_frame _ _ _ _ _ _ _).1]
      exact lookupA_setA_self _ _ _
    · exact (chatCore_frame _ _ _ _ _ _ _).2
  · intro hge
    cases hl : lookupA st.rateLimits clientIp with
    | none =>
      rw [hl] at hge
      simp [pruneRecent] at hge
    | some l =>
      rw [hl] at hge
      simp only [Option.getD_some] at hge
      simp only [chatEndpoint, hl, if_pos hge]

/-- C10 (witness): a request with both fields missing — a validation failure
— from an address with an empty rate table still records its timestamp. -/
theorem chat_rate_budget_accounting_witness :
    lookupA (chatEndpoint none none "ip" 5 (fun s => s) "m1" "m2"
      ⟨⟨[], []⟩, [], []⟩).2.rateLimits "ip" = some [5] ∧
    (chatEndpoint none none "ip" 5 (fun s => s) "m1" "m2" ⟨⟨[], []⟩, [], []⟩).1 =
      .missingParams :=
  ⟨Eq.trans ((chat_rate_budget_accounting none none "ip" 5 (fun s => s) "m1" "m2"
      ⟨⟨[], []⟩, [], []⟩).1 (by decide)).1 (by decide), by decide⟩

/-! Machinery for the two `init_session` claims. -/

/-- Soundness of the matcher without an account id: the returned id belongs
to a stored session matching the tenant and device query. -/
theorem findExistingSession_none_sound {H : HashFns}
    {userAgent ipAddress erpnextUrl username : String} {now : Int} {st : Store}
    {sid : String}
    (h : findExistingSession H userAgent ipAddress erpnextUrl username none now st =
      some sid) :
    ∃ s ∈ st.sessions, s.session_id = sid ∧
      sessionMatches (userIdentifier H username erpnextUrl)
        (browserFingerprint H userAgent ipAddress) (now - 30 * 86400) s = true := by
  simp only [findExistingSession] at h
  cases hfo : findOneSorted (sessionMatches (userIdentifier H username erpnextUrl)
      (browserFingerprint H userAgent ipAddress) (now - 30 * 86400)) st.sessions with
  | none => rw [hfo] at h; cases h
  | some s =>
    rw [hfo] at h
    simp only [Option.map, Option.some.injEq] at h
    obtain ⟨hm, hp⟩ := findOneSorted_sound hfo
    exact ⟨s, hm, h, hp⟩

/-- When a stored session matches the query and strictly dominates every
other matching session in `last_accessed`, the matcher returns exactly it. -/
theorem findExistingSession_of_strict {H : HashFns}
    {userAgent ipAddress erpnextUrl username : String} {now : Int} {st : Store}
    {s1 : Session} (hs : s1 ∈ st.sessions)
    (hp : sessionMatches (userIdentifier H username erpnextUrl)
      (browserFingerprint H userAgent ipAddress) (now - 30 * 86400) s1 = true)
    (hmax : ∀ t ∈ st.sessions,
      sessionMatches (userIdentifier H username erpnextUrl)
        (browserFingerprint H userAgent ipAddress) (now - 30 * 86400) t = true →
      t ≠ s1 → t.last_accessed < s1.last_accessed) :
    findExistingSession H userAgent ipAddress erpnextUrl username none now st =
      some s1.session_id := by
  have hone := findOneSorted_strict hs hp hmax
  simp only [findExistingSession, hone]
  rfl

/-- Post-state of the new-session branch of `init_session`: the outcome is a
fresh non-restored session id, messages are untouched, id uniqueness is kept,
and the inserted record is the unique freshest session. -/
theorem initCreatePath_post (H : HashFns)
    (newId url username password gkey site ua ip : String) (t1 : Int)
    (st : ServerState)
    (hU : (st.store.sessions.map (fun s => s.session_id)).Nodup)
    (hfresh : ∀ s ∈ st.store.sessions, s.last_accessed < t1)
    (hid1 : ∀ s ∈ st.store.sessions, s.session_id ≠ newId) :
    (initCreatePath H newId url username password gkey site ua ip t1 st).1 =
      .ok newId false ∧
    (initCreatePath H newId url username password gkey site ua ip t1 st).2.store.messages =
      st.store.messages ∧
    ((initCreatePath H newId url username password gkey site ua ip t1
        st).2.store.sessions.map (fun s => s.session_id)).Nodup ∧
    newSessionRecord H newId url username password gkey ua ip site none t1 ∈
      (initCreatePath H newId url username password gkey site ua ip t1 st).2.store.sessions ∧
    (∀ s ∈ (initCreatePath H newId url username password gkey site ua ip t1
        st).2.store.sessions,
      s ≠ newSessionRecord H newId url username password gkey ua ip site none t1 →
      s.last_accessed < t1) ∧
    getSession (initCreatePath H newId url username password gkey site ua ip t1 st).2.store
        newId =
      some (newSessionRecord H newId url username password gkey ua ip site none t1) := by
  refine ⟨rfl, rfl, ?_, ?_, ?_, ?_⟩
  · show ((st.store.sessions ++ [newSessionRecord H newId url username password gkey ua ip
      site none t1]).map (fun s => s.session_id)).Nodup
    rw [List.map_append, List.nodup_append]
    refine ⟨hU, List.nodup_singleton _, ?_⟩
    intro a ha hb
    obtain ⟨s, hs, hsid⟩ := List.mem_map.mp ha
    simp only [List.map_cons, List.map_nil, List.mem_singleton] at hb
    exact hid1 s hs (hsid.trans hb)
  · exact List.mem_append_right _ (List.mem_singleton.mpr rfl)
  · intro s hs hne
    rcases List.mem_append.mp hs with h1 | h2
    · exact hfresh s h1
    · exact absurd (List.mem_singleton.mp h2) hne
  · show (st.store.sessions ++ [newSessionRecord H newId url username password gkey ua ip
      site none t1]).find? _ = _
    rw [List.find?_append]
    have hnone : st.store.sessions.find?
        (fun s => s.session_id == newId && s.is_active) = none := by
      rw [List.find?_eq_none]
      intro x hx
      simp [hid1 x hx]
    rw [hnone]
    simp [newSessionRecord]

/-- Post-state of a validated `init_session` call with restoration enabled,
on a store whose ids are unique, nonempty, all distinct from the fresh uuid,
and whose access times all precede the call time: the call answers `ok` with
some session id, leaves messages untouched, keeps id uniqueness, and the
resulting store holds exactly one freshest session — the one answered —
active, bearing the tenant and device keys of the request and the hashes of
the supplied credentials, retrievable through `getSession`. -/
theorem initSession_post (H : HashFns)
    (newId url username password gkey site ua ip : String) (t1 : Int)
    (st0 : ServerState)
    (hurl : url ≠ "") (huser : username ≠ "") (hpw : password ≠ "session_token")
    (hkey : 20 ≤ gkey.length)
    (hU : (st0.store.sessions.map (fun s => s.session_id)).Nodup)
    (hfresh : ∀ s ∈ st0.store.sessions, s.last_accessed < t1)
    (hid1 : ∀ s ∈ st0.store.sessions, s.session_id ≠ newId)
    (hne : ∀ s ∈ st0.store.sessions, s.session_id ≠ "")
    (hid1ne : newId ≠ "") :
    ∃ sid1 b1 s1,
      (initSession H newId url username password gkey site ua ip true t1 st0).1 =
        .ok sid1 b1 ∧
      (sid1 = newId ∨ ∃ s ∈ st0.store.sessions, s.session_id = sid1) ∧
      sid1 ≠ "" ∧
      (initSession H newId url username password gkey site ua ip true t1
        st0).2.store.messages = st0.store.messages ∧
      ((initSession H newId url username password gkey site ua ip true t1
        st0).2.store.sessions.map (fun s => s.session_id)).Nodup ∧
      s1 ∈ (initSession H newId url username password gkey site ua ip true t1
        st0).2.store.sessions ∧
      s1.session_id = sid1 ∧ s1.is_active = true ∧ s1.last_accessed = t1 ∧
      s1.user_identifier = userIdentifier H username url ∧
      s1.browser_fingerprint = browserFingerprint H ua ip ∧
      s1.password_hash = hashCredential H password ∧
      s1.google_api_key_hash = hashCredential H gkey ∧
      (∀ s ∈ (initSession H newId url username password gkey site ua ip true t1
        st0).2.store.sessions, s ≠ s1 → s.last_accessed < t1) ∧
      getSession (initSession H newId url username password gkey site ua ip true t1
        st0).2.store sid1 = some s1 := by
  have hkey0 : ¬(gkey = "") := by
    intro he
    rw [he] at hkey
    exact absurd hkey (by decide)
  cases hfind : findExistingSession H ua ip url username none t1 st0.store with
  | none =>
    have heq : initSession H newId url username password gkey site ua ip true t1 st0 =
        initCreatePath H newId url username password gkey site ua ip t1 st0 := by
      simp only [initSession, if_neg (not_or.mpr ⟨hurl, huser⟩), if_neg hkey0,
        if_neg hpw, if_neg (not_lt.mpr hkey), if_true, hfind]
    obtain ⟨p1, p2, p3, p4, p5, p6⟩ :=
      initCreatePath_post H newId url username password gkey site ua ip t1 st0 hU hfresh hid1
    rw [heq]
    exact ⟨newId, false, newSessionRecord H newId url username password gkey ua ip site
      none t1, p1, Or.inl rfl, hid1ne, p2, p3, p4, rfl, rfl, rfl, rfl, rfl, rfl, rfl, p5, p6⟩
  | some sid =>
    obtain ⟨sq, hsqm, hsqid, hsqmatch⟩ := findExistingSession_none_sound hfind
    have hsidne : ¬(sid = "") := hsqid ▸ hne sq hsqm
    cases hv : verifyCredentials H st0.store sid password gkey with
    | false =>
      have heq : initSession H newId url username password gkey site ua ip true t1 st0 =
          initCreatePath H newId url username password gkey site ua ip t1 st0 := by
        simp only [initSession, if_neg (not_or.mpr ⟨hurl, huser⟩), if_neg hkey0,
          if_neg hpw, if_neg (not_lt.mpr hkey), if_true, hfind, if_neg hsidne, hv,
          Bool.false_eq_true, if_false]
      obtain ⟨p1, p2, p3, p4, p5, p6⟩ :=
        initCreatePath_post H newId url username password gkey site ua ip t1 st0 hU hfresh hid1
      rw [heq]
      exact ⟨newId, false, newSessionRecord H newId url username password gkey ua ip site
        none t1, p1, Or.inl rfl, hid1ne, p2, p3, p4, rfl, rfl, rfl, rfl, rfl, rfl, rfl, p5, p6⟩
    | true =>
      cases hgs : getSession st0.store sid with
      | none => simp [verifyCredentials, hgs] at hv
      | some s0 =>
        have hhash : s0.password_hash = hashCredential H password ∧
            s0.google_api_key_hash = hashCredential H gkey := by
          have hv2 := hv
          simp only [verifyCredentials, hgs, Bool.and_eq_true, beq_iff_eq] at hv2
          exact hv2
        obtain ⟨hs0m, hs0id, hs0act⟩ := getSession_sound hgs
        have hsq0 : sq = s0 :=
          List.inj_on_of_nodup_map hU hsqm hs0m (by rw [hsqid, hs0id])
        have hmatch := (sessionMatches_iff _ _ _ _).mp hsqmatch
        have hgt : getSession (updateSessionAccess st0.store sid t1) sid =
            some { s0 with last_accessed := t1 } :=
          getSession_updateSessionAccess hU hgs
        have heq : (initSession H newId url username password gkey site ua ip true t1
              st0).1 = .ok sid true ∧
            (initSession H newId url username password gkey site ua ip true t1
              st0).2.store = updateSessionAccess st0.store sid t1 := by
          cases hla : lookupA st0.agents sid with
          | some a =>
            constructor <;>
              simp only [initSession, if_neg (not_or.mpr ⟨hurl, huser⟩), if_neg hkey0,
                if_neg hpw, if_neg (not_lt.mpr hkey), if_true, hfind, if_neg hsidne,
                hv, if_pos rfl, hla]
          | none =>
            constructor <;>
              simp only [initSession, if_neg (not_or.mpr ⟨hurl, huser⟩), if_neg hkey0,
                if_neg hpw, if_neg (not_lt.mpr hkey), if_true, hfind, if_neg hsidne,
                hv, if_pos rfl, hla, hgt]
        refine ⟨sid, true, { s0 with last_accessed := t1 }, heq.1,
          Or.inr ⟨s0, hs0m, hs0id⟩, hsidne, ?_, ?_, ?_, hs0id, hs0act, rfl,
          hsq0 ▸ hmatch.1, hsq0 ▸ hmatch.2.1, hhash.1, hhash.2, ?_, ?_⟩
        · rw [heq.2]
          rfl
        · rw [heq.2]
          show (List.map _ (updateFirstSession sid _ st0.store.sessions)).Nodup
          rw [map_session_id_updateFirst]
          exact hU
        · rw [heq.2]
          exact (getSession_sound hgt).1
        · rw [heq.2]
          show ∀ s ∈ updateFirstSession sid _ st0.store.sessions, _
          rw [updateFirstSession_eq_map hU]
          intro s hs hsne
          obtain ⟨t, htm, hteq⟩ := List.mem_map.mp hs
          by_cases htc : t.session_id = sid
          · have ht0 : t = s0 := List.inj_on_of_nodup_map hU htm hs0m (by rw [htc, hs0id])
            rw [if_pos htc, ht0] at hteq
            exact absurd hteq.symm hsne
          · rw [if_neg htc] at hteq
            exact hteq ▸ hfresh t htm
        · rw [heq.2]
          exact hgt

/-- A syntactically valid 20-character secondary secret for the witnesses. -/
def wKey : String := "key12345678901234567"

/-- Second-call lemma: on a state whose unique freshest session at time `t1`
matches the request keys and stored hashes, a restoring `init` call at a
later in-window time `t2` restores exactly that session. -/
theorem initSession_second_restores (H : HashFns)
    (newId url username password gkey site ua ip : String) (t1 t2 : Int)
    (st1 : ServerState) (sid1 : String) (s1 : Session)
    (hurl : url ≠ "") (huser : username ≠ "") (hpw : password ≠ "session_token")
    (hkey : 20 ≤ gkey.length)
    (hsidne : sid1 ≠ "")
    (hU1 : (st1.store.sessions.map (fun s => s.session_id)).Nodup)
    (hmem : s1 ∈ st1.store.sessions) (hid : s1.session_id = sid1)
    (hact : s1.is_active = true) (hlast : s1.last_accessed = t1)
    (huid : s1.user_identifier = userIdentifier H username url)
    (hfp : s1.browser_fingerprint = browserFingerprint H ua ip)
    (hph : s1.password_hash = hashCredential H password)
    (hkh : s1.google_api_key_hash = hashCredential H gkey)
    (hstrict : ∀ s ∈ st1.store.sessions, s ≠ s1 → s.last_accessed < t1)
    (hgs1 : getSession st1.store sid1 = some s1)
    (hw : t2 - 30 * 86400 ≤ t1) :
    (initSession H newId url username password gkey site ua ip true t2 st1).1 =
      .ok sid1 true := by
  have hkey0 : ¬(gkey = "") := by
    intro he
    rw [he] at hkey
    exact absurd hkey (by decide)
  have hp2 : sessionMatches (userIdentifier H username url) (browserFingerprint H ua ip)
      (t2 - 30 * 86400) s1 = true := by
    rw [sessionMatches_iff]
    exact ⟨huid, hfp, by rw [hlast]; exact hw, hact⟩
  have hmax2 : ∀ t ∈ st1.store.sessions,
      sessionMatches (userIdentifier H username url) (browserFingerprint H ua ip)
        (t2 - 30 * 86400) t = true → t ≠ s1 → t.last_accessed < s1.last_accessed := by
    intro t htm _ htne
    rw [hlast]
    exact hstrict t htm htne
  have hfind2 := findExistingSession_of_strict hmem hp2 hmax2
  rw [hid] at hfind2
  have hv2 : verifyCredentials H st1.store sid1 password gkey = true := by
    simp only [verifyCredentials, hgs1, Bool.and_eq_true, beq_iff_eq]
    exact ⟨hph, hkh⟩
  have hgt2 : getSession (updateSessionAccess st1.store sid1 t2) sid1 =
      some { s1 with last_accessed := t2 } :=
    getSession_updateSessionAccess hU1 hgs1
  have hsidne2 : ¬(sid1 = "") := hsidne
  cases hla : lookupA st1.agents sid1 with
  | some a =>
    simp only [initSession, if_neg (not_or.mpr ⟨hurl, huser⟩), if_neg hkey0, if_neg hpw,
      if_neg (not_lt.mpr hkey), if_true, hfind2, if_neg hsidne2, hv2, if_pos rfl, hla]
  | none =>
    simp only [initSession, if_neg (not_or.mpr ⟨hurl, huser⟩), if_neg hkey0, if_neg hpw,
      if_neg (not_lt.mpr hkey), if_true, hfind2, if_neg hsidne2, hv2, if_pos rfl, hla,
      hgt2]

/-- Second-call lemma with a changed secret: the matcher still finds the
unique freshest session, `verify` fails on the stored hash, and the call
falls through to the new-session branch. -/
theorem initSession_second_mismatch (H : HashFns)
    (newId url username password gkey site ua ip : String) (t1 t2 : Int)
    (st1 : ServerState) (sid1 : String) (s1 : Session) (oldHash : String)
    (hurl : url ≠ "") (huser : username ≠ "") (hpw : password ≠ "session_token")
    (hkey : 20 ≤ gkey.length)
    (hsidne : sid1 ≠ "")
    (hmem : s1 ∈ st1.store.sessions) (hid : s1.session_id = sid1)
    (hact : s1.is_active = true) (hlast : s1.last_accessed = t1)
    (huid : s1.user_identifier = userIdentifier H username url)
    (hfp : s1.browser_fingerprint = browserFingerprint H ua ip)
    (hph : s1.password_hash = oldHash)
    (hstrict : ∀ s ∈ st1.store.sessions, s ≠ s1 → s.last_accessed < t1)
    (hgs1 : getSession st1.store sid1 = some s1)
    (hw : t2 - 30 * 86400 ≤ t1)
    (hdiff : oldHash ≠ hashCredential H password) :
    initSession H newId url username password gkey site ua ip true t2 st1 =
      initCreatePath H newId url username password gkey site ua ip t2 st1 := by
  have hkey0 : ¬(gkey = "") := by
    intro he
    rw [he] at hkey
    exact absurd hkey (by decide)
  have hp2 : sessionMatches (userIdentifier H username url) (browserFingerprint H ua ip)
      (t2 - 30 * 86400) s1 = true := by
    rw [sessionMatches_iff]
    exact ⟨huid, hfp, by rw [hlast]; exact hw, hact⟩
  have hmax2 : ∀ t ∈ st1.store.sessions,
      sessionMatches (userIdentifier H username url) (browserFingerprint H ua ip)
        (t2 - 30 * 86400) t = true → t ≠ s1 → t.last_accessed < s1.last_accessed := by
    intro t htm _ htne
    rw [hlast]
    exact hstrict t htm htne
  have hfind2 := findExistingSession_of_strict hmem hp2 hmax2
  rw [hid] at hfind2
  have hv2 : verifyCredentials H st1.store sid1 password gkey = false := by
    simp only [verifyCredentials, hgs1]
    have hb : (s1.password_hash == hashCredential H password) = false := by
      rw [beq_eq_false_iff_ne, hph]
      exact hdiff
    rw [hb, Bool.false_and]
  simp only [initSession, if_neg (not_or.mpr ⟨hurl, huser⟩), if_neg hkey0, if_neg hpw,
    if_neg (not_lt.mpr hkey), if_true, hfind2, if_neg hsidne, hv2,
    Bool.false_eq_true, if_false]

/-- C2: starting from a store of strictly older, distinct-id sessions, a
restoring `init` call followed within the freshness window by a second
restoring call with the identical
`(endpointURL, username, secret, secondarySecret, deviceString, clientAddress)`
tuple makes the second call answer the same session id with restored = true. -/
theorem init_restoration_idempotent (H : HashFns)
    (newId1 newId2 url username password gkey site ua ip : String) (t1 t2 : Int)
    (st0 : ServerState)
    (hurl : url ≠ "") (huser : username ≠ "") (hpw : password ≠ "session_token")
    (hkey : 20 ≤ gkey.length)
    (hU : (st0.store.sessions.map (fun s => s.session_id)).Nodup)
    (hfresh : ∀ s ∈ st0.store.sessions, s.last_accessed < t1)
    (hid1 : ∀ s ∈ st0.store.sessions, s.session_id ≠ newId1)
    (hne : ∀ s ∈ st0.store.sessions, s.session_id ≠ "")
    (hid1ne : newId1 ≠ "")
    (ht : t1 ≤ t2) (hw : t2 - 30 * 86400 ≤ t1) :
    ∃ sid1 b1,
      (initSession H newId1 url username password gkey site ua ip true t1 st0).1 =
        .ok sid1 b1 ∧
      (initSession H newId2 url username password gkey site ua ip true t2
        (initSession H newId1 url username password gkey site ua ip true t1 st0).2).1 =
        .ok sid1 true := by
  obtain ⟨sid1, b1, s1, h1, horig, hsidne, hmsg, hU1, hmem, hid, hact, hlast, huid, hfp,
    hph, hkh, hstrict, hgs1⟩ := initSession_post H newId1 url username password gkey
      site ua ip t1 st0 hurl huser hpw hkey hU hfresh hid1 hne hid1ne
  exact ⟨sid1, b1, h1, initSession_second_restores H newId2 url username password gkey
    site ua ip t1 t2 _ sid1 s1 hurl huser hpw hkey hsidne hU1 hmem hid hact hlast huid
    hfp hph hkh hstrict hgs1 hw⟩

/-- C2 (witness): two identical restoring calls on the empty store, the
second one 60 seconds later, answer the same id, the second restored. -/
theorem init_restoration_idempotent_witness :
    ∃ sid1 b1,
      (initSession idHash "S1" "u" "alice" "pw" wKey "u" "UA" "ip" true 0
        ⟨⟨[], []⟩, [], []⟩).1 = .ok sid1 b1 ∧
      (initSession idHash "S2" "u" "alice" "pw" wKey "u" "UA" "ip" true 60
        (initSession idHash "S1" "u" "alice" "pw" wKey "u" "UA" "ip" true 0
          ⟨⟨[], []⟩, [], []⟩).2).1 = .ok sid1 true :=
  init_restoration_idempotent idHash "S1" "S2" "u" "alice" "pw" wKey "u" "UA" "ip" 0 60
    ⟨⟨[], []⟩, [], []⟩ (by decide) (by decide) (by decide) (by decide) (by decide)
    (by decide) (by decide) (by decide) (by decide) (by decide) (by decide)

/-- C3: changing only the secret between two restoring `init` calls makes the
matcher still find the first session but `verify` fail, which silently falls
through to creation: the second call answers a different, fresh id with
restored = false, the first session stays active and retrievable, and the
chat history reachable through the first id is untouched. -/
theorem credential_change_creates_new_session (H : HashFns)
    (newId1 newId2 url username password1 password2 gkey site ua ip : String)
    (t1 t2 : Int) (st0 : ServerState) (lim : Nat)
    (hurl : url ≠ "") (huser : username ≠ "")
    (hpw1 : password1 ≠ "session_token") (hpw2 : password2 ≠ "session_token")
    (hkey : 20 ≤ gkey.length)
    (hU : (st0.store.sessions.map (fun s => s.session_id)).Nodup)
    (hfresh : ∀ s ∈ st0.store.sessions, s.last_accessed < t1)
    (hid1 : ∀ s ∈ st0.store.sessions, s.session_id ≠ newId1)
    (hid2 : ∀ s ∈ st0.store.sessions, s.session_id ≠ newId2)
    (hne : ∀ s ∈ st0.store.sessions, s.session_id ≠ "")
    (hid1ne : newId1 ≠ "") (hid2ne : newId2 ≠ "") (h12 : newId2 ≠ newId1)
    (ht : t1 ≤ t2) (hw : t2 - 30 * 86400 ≤ t1)
    (hdiff : hashCredential H password2 ≠ hashCredential H password1) :
    ∃ sid1 b1,
      (initSession H newId1 url username password1 gkey site ua ip true t1 st0).1 =
        .ok sid1 b1 ∧
      (initSession H newId2 url username password2 gkey site ua ip true t2
        (initSession H newId1 url username password1 gkey site ua ip true t1 st0).2).1 =
        .ok newId2 false ∧
      newId2 ≠ sid1 ∧
      (∃ s1, getSession (initSession H newId2 url username password2 gkey site ua ip true
          t2 (initSession H newId1 url username password1 gkey site ua ip true t1
            st0).2).2.store sid1 = some s1 ∧ s1.is_active = true) ∧
      getSession (initSession H newId2 url username password2 gkey site ua ip true t2
          (initSession H newId1 url username password1 gkey site ua ip true t1
            st0).2).2.store sid1 =
        getSession (initSession H newId1 url username password1 gkey site ua ip true t1
          st0).2.store sid1 ∧
      getChatHistory (initSession H newId2 url username password2 gkey site ua ip true t2
          (initSession H newId1 url username password1 gkey site ua ip true t1
            st0).2).2.store sid1 lim =
        getChatHistory (initSession H newId1 url username password1 gkey site ua ip true
          t1 st0).2.store sid1 lim := by
  obtain ⟨sid1, b1, s1, h1, horig, hsidne, hmsg, hU1, hmem, hid, hact, hlast, huid, hfp,
    hph, hkh, hstrict, hgs1⟩ := initSession_post H newId1 url username password1 gkey
      site ua ip t1 st0 hurl huser hpw1 hkey hU hfresh hid1 hne hid1ne
  have heq2 := initSession_second_mismatch H newId2 url username password2 gkey site ua
    ip t1 t2 _ sid1 s1 (hashCredential H password1) hurl huser hpw2 hkey hsidne hmem hid
    hact hlast huid hfp hph hstrict hgs1 hw (fun he => hdiff he.symm)
  have hget2 : getSession (initSession H newId2 url username password2 gkey site ua ip
      true t2 (initSession H newId1 url username password1 gkey site ua ip true t1
        st0).2).2.store sid1 = some s1 := by
    rw [heq2]
    show ((initSession H newId1 url username password1 gkey site ua ip true t1
      st0).2.store.sessions ++ _).find? _ = _
    rw [List.find?_append]
    have hfd : (initSession H newId1 url username password1 gkey site ua ip true t1
        st0).2.store.sessions.find? (fun s => s.session_id == sid1 && s.is_active) =
        some s1 := hgs1
    rw [hfd]
    rfl
  refine ⟨sid1, b1, h1, ?_, ?_, ⟨s1, hget2, hact⟩, hget2.trans hgs1.symm, ?_⟩
  · rw [heq2]
    rfl
  · rcases horig with h | ⟨s, hs, hsid⟩
    · rw [h]
      exact h12
    · rw [← hsid]
      exact fun he => hid2 s hs he.symm
  · rw [heq2]
    rfl

/-- C3 (witness): the concrete second call with a changed secret creates the
fresh session `S2` and leaves session `S1` retrievable. -/
theorem credential_change_creates_new_session_witness :
    ∃ sid1 b1,
      (initSession idHash "S1" "u" "alice" "pw1" wKey "u" "UA" "ip" true 0
        ⟨⟨[], []⟩, [], []⟩).1 = .ok sid1 b1 ∧
      (initSession idHash "S2" "u" "alice" "pw2" wKey "u" "UA" "ip" true 60
        (initSession idHash "S1" "u" "alice" "pw1" wKey "u" "UA" "ip" true 0
          ⟨⟨[], []⟩, [], []⟩).2).1 = .ok "S2" false ∧
      "S2" ≠ sid1 ∧
      (∃ s1, getSession (initSession idHash "S2" "u" "alice" "pw2" wKey "u" "UA" "ip"
          true 60 (initSession idHash "S1" "u" "alice" "pw1" wKey "u" "UA" "ip" true 0
            ⟨⟨[], []⟩, [], []⟩).2).2.store sid1 = some s1 ∧ s1.is_active = true) ∧
      getSession (initSession idHash "S2" "u" "alice" "pw2" wKey "u" "UA" "ip" true 60
          (initSession idHash "S1" "u" "alice" "pw1" wKey "u" "UA" "ip" true 0
            ⟨⟨[], []⟩, [], []⟩).2).2.store sid1 =
        getSession (initSession idHash "S1" "u" "alice" "pw1" wKey "u" "UA" "ip" true 0
          ⟨⟨[], []⟩, [], []⟩).2.store sid1 ∧
      getChatHistory (initSession idHash "S2" "u" "alice" "pw2" wKey "u" "UA" "ip" true
          60 (initSession idHash "S1" "u" "alice" "pw1" wKey "u" "UA" "ip" true 0
            ⟨⟨[], []⟩, [], []⟩).2).2.store sid1 20 =
        getChatHistory (initSession idHash "S1" "u" "alice" "pw1" wKey "u" "UA" "ip" true
          0 ⟨⟨[], []⟩, [], []⟩).2.store sid1 20 :=
  credential_change_creates_new_session idHash "S1" "S2" "u" "alice" "pw1" "pw2" wKey
    "u" "UA" "ip" 0 60 ⟨⟨[], []⟩, [], []⟩ 20 (by decide) (by decide) (by decide)
    (by decide) (by decide) (by decide) (by decide) (by decide) (by decide) (by decide)
    (by decide) (by decide) (by decide) (by decide) (by decide) (by decide)

end AidaChat
